import Mathlib

/-!
Shallow embedding of the `yargevad/mailtools` repository (Go):
the `mimeutil` MIME-attachment extractor, the `imaputil` IMAP session
wrapper, and the `climap` command's search/download loop.

External standard-library and third-party functionality (Go
`encoding/base64`, `bytes.Map`/`unicode.IsSpace`, `mime/multipart`
parsing, and the `mxk/go-imap` client) is modelled at the interface the
repository code uses; repository code itself is translated statement by
statement.
-/

namespace Mailtools

/-! ## Bytes and runes: models of Go `unicode`, `unicode/utf8`, `bytes.Map` -/

/-- Go `unicode.IsSpace` on a code point: the Unicode White_Space property. -/
def isSpaceRune (r : Nat) : Bool :=
  decide (r = 0x9 ∨ r = 0xA ∨ r = 0xB ∨ r = 0xC ∨ r = 0xD ∨ r = 0x20 ∨
    r = 0x85 ∨ r = 0xA0 ∨ r = 0x1680 ∨ (0x2000 ≤ r ∧ r ≤ 0x200A) ∨
    r = 0x2028 ∨ r = 0x2029 ∨ r = 0x202F ∨ r = 0x205F ∨ r = 0x3000)

/-- A UTF-8 continuation byte (`0x80..0xBF`). -/
def isCont (b : Nat) : Bool :=
  decide (0x80 ≤ b ∧ b ≤ 0xBF)

/-- Valid range of the second byte of a multi-byte UTF-8 sequence headed by
`b`, following Go `unicode/utf8`'s acceptRanges table. -/
def secondByteOk (b b1 : Nat) : Bool :=
  if b = 0xE0 then decide (0xA0 ≤ b1 ∧ b1 ≤ 0xBF)
  else if b = 0xED then decide (0x80 ≤ b1 ∧ b1 ≤ 0x9F)
  else if b = 0xF0 then decide (0x90 ≤ b1 ∧ b1 ≤ 0xBF)
  else if b = 0xF4 then decide (0x80 ≤ b1 ∧ b1 ≤ 0x8F)
  else isCont b1

/-- Go `utf8.DecodeRune` on the byte `b` followed by `rest`: the decoded
code point and the total number of bytes consumed (at least 1). Any invalid
or truncated sequence yields the replacement rune `0xFFFD` with size 1,
exactly as in Go. -/
def decodeRuneAt (b : Nat) (rest : List Nat) : Nat × Nat :=
  if b < 0x80 then (b, 1)
  else if 0xC2 ≤ b ∧ b ≤ 0xDF then
    match rest with
    | b1 :: _ =>
      if isCont b1 then ((b - 0xC0) * 0x40 + (b1 - 0x80), 2) else (0xFFFD, 1)
    | [] => (0xFFFD, 1)
  else if 0xE0 ≤ b ∧ b ≤ 0xEF then
    match rest with
    | b1 :: b2 :: _ =>
      if secondByteOk b b1 && isCont b2 then
        ((b - 0xE0) * 0x1000 + (b1 - 0x80) * 0x40 + (b2 - 0x80), 3)
      else (0xFFFD, 1)
    | _ => (0xFFFD, 1)
  else if 0xF0 ≤ b ∧ b ≤ 0xF4 then
    match rest with
    | b1 :: b2 :: b3 :: _ =>
      if secondByteOk b b1 && isCont b2 && isCont b3 then
        ((b - 0xF0) * 0x40000 + (b1 - 0x80) * 0x1000 + (b2 - 0x80) * 0x40 + (b3 - 0x80), 4)
      else (0xFFFD, 1)
    | _ => (0xFFFD, 1)
  else (0xFFFD, 1)

/-- UTF-8 encoding of a code point (Go `utf8.EncodeRune`, valid range). -/
def utf8Encode (r : Nat) : List Nat :=
  if r < 0x80 then [r]
  else if r < 0x800 then [0xC0 + r / 0x40, 0x80 + r % 0x40]
  else if r < 0x10000 then
    [0xE0 + r / 0x1000, 0x80 + (r / 0x40) % 0x40, 0x80 + r % 0x40]
  else
    [0xF0 + r / 0x40000, 0x80 + (r / 0x1000) % 0x40, 0x80 + (r / 0x40) % 0x40,
      0x80 + r % 0x40]

/-- Fuel-indexed worker for `stripSpaceBytes`; the fuel only bounds the
number of decoding steps, and `l.length` always suffices because each step
consumes at least one byte. -/
def stripSpaceAux : Nat → List Nat → List Nat
  | 0, _ => []
  | _, [] => []
  | fuel + 1, b :: rest =>
    let rn := decodeRuneAt b rest
    (if isSpaceRune rn.1 then [] else utf8Encode rn.1) ++
      stripSpaceAux fuel (rest.drop (rn.2 - 1))

/-- The whitespace removal in `DecodeAttachment` (part_000 lines 95-100):
Go `bytes.Map` with a function returning `-1` on `unicode.IsSpace` runes and
the rune unchanged otherwise — decode each UTF-8 rune, drop whitespace
runes, re-encode the rest. -/
def stripSpaceBytes (l : List Nat) : List Nat :=
  stripSpaceAux l.length l

/-! ## Model of Go `encoding/base64` StdEncoding decoding -/

/-- Go `encoding/base64` decode map for the standard alphabet. -/
def b64Val (b : Nat) : Option Nat :=
  if 0x41 ≤ b ∧ b ≤ 0x5A then some (b - 0x41)
  else if 0x61 ≤ b ∧ b ≤ 0x7A then some (b - 0x61 + 26)
  else if 0x30 ≤ b ∧ b ≤ 0x39 then some (b - 0x30 + 52)
  else if b = 0x2B then some 62
  else if b = 0x2F then some 63
  else none

/-- Go `base64.StdEncoding.Decode` on inputs containing no CR or LF
(`DecodeAttachment` strips all whitespace before decoding): 4-character
quanta; `=` padding only in the last quantum and only in its final one or
two positions; any other irregularity — a non-alphabet byte, a partial
final quantum, or data after padding — is a `CorruptInputError`, modelled
as `none`. Trailing sextet bits are not checked, as in Go. -/
def base64Decode : List Nat → Option (List Nat)
  | [] => some []
  | a :: b :: c :: d :: rest =>
    match b64Val a, b64Val b with
    | some va, some vb =>
      match b64Val c with
      | some vc =>
        match b64Val d with
        | some vd =>
          match base64Decode rest with
          | some out =>
            some ((va * 4 + vb / 16) :: ((vb % 16) * 16 + vc / 4) ::
              ((vc % 4) * 64 + vd) :: out)
          | none => none
        | none =>
          if d = 0x3D ∧ rest = [] then
            some [va * 4 + vb / 16, (vb % 16) * 16 + vc / 4]
          else none
      | none =>
        if c = 0x3D ∧ d = 0x3D ∧ rest = [] then some [va * 4 + vb / 16]
        else none
    | _, _ => none
  | _ => none

/-! ## mimeutil: `Attachment` and `DecodeAttachment` (part_000 lines 20-116)

The message is embedded at the interface `DecodeAttachment` consumes from
the Go standard library: `mail.ReadMessage` / `mime.ParseMediaType` yield
the top-level media type and whether a `boundary` parameter is present
(`headerErr` records their failure), and `multipart.Reader` yields the
sequence of parts, each with the results of `part.FileName()`, the
`Content-Transfer-Encoding` header, and the raw bytes `part.Read` returns
(`readErr` records a non-EOF read failure, `tailErr` a non-EOF `NextPart`
failure after the listed parts). -/

/-- One multipart part as seen through `mime/multipart`. -/
structure MimePart where
  fileName : String
  cte : String
  body : List Nat
  readErr : Bool
deriving Repr, DecidableEq

/-- A message as seen through `net/mail` + `mime` + `mime/multipart`. -/
structure MimeMsg where
  headerErr : Bool
  mediaType : String
  hasBoundary : Bool
  parts : List MimePart
  tailErr : Bool
deriving Repr, DecidableEq

/-- `mimeutil.Attachment` (part_000 lines 20-26); the unexported `encoding`
field is kept, the `frags` slice is materialised directly into `content`
as `bytes.Join(att.frags, []byte(""))` does. -/
structure Attachment where
  filename : String
  length : Nat
  content : List Nat
  encoding : String
deriving Repr, DecidableEq

/-- The distinct error returns of `DecodeAttachment`. -/
inductive DAErr where
  | headerErr
  | unsupportedContentType (mtype : String)
  | noBoundary
  | nextPartErr
  | readErr
  | base64Err
  | unsupportedCTE (enc : String)
deriving Repr, DecidableEq

/-- Go `strings.HasPrefix`. -/
def strHasPre (s pre : String) : Bool :=
  pre.data.isPrefixOf s.data

/-- Lines 89-111 of part_000: build the `Attachment` for the first
filename-carrying part and handle its `Content-Transfer-Encoding`:
empty encoding keeps the raw bytes; `base64` strips whitespace, decodes,
and truncates `Content`/`Length` to the decoded byte count; anything else
returns the raw attachment together with an error. -/
def decodePart (p : MimePart) : Option Attachment × Option DAErr :=
  let att : Attachment := ⟨p.fileName, p.body.length, p.body, p.cte⟩
  if p.cte = "" then (some att, none)
  else if p.cte = "base64" then
    match base64Decode (stripSpaceBytes p.body) with
    | some dec => (some { att with content := dec, length := dec.length }, none)
    | none => (none, some DAErr.base64Err)
  else (some att, some (DAErr.unsupportedCTE p.cte))

/-- The part loop of `DecodeAttachment` (lines 64-114): take parts in
order, skip those whose `FileName()` is empty, and process the first one
carrying a filename; reading EOF with no such part falls through to the
final `return nil, nil`. -/
def walkParts : List MimePart → Bool → Option Attachment × Option DAErr
  | [], tailErr =>
    if tailErr then (none, some DAErr.nextPartErr) else (none, none)
  | p :: ps, tailErr =>
    if p.fileName ≠ "" then
      if p.readErr then (none, some DAErr.readErr) else decodePart p
    else walkParts ps tailErr

/-- `mimeutil.DecodeAttachment` (part_000 lines 40-116). -/
def DecodeAttachment (m : MimeMsg) : Option Attachment × Option DAErr :=
  if m.headerErr then (none, some DAErr.headerErr)
  else if ¬ strHasPre m.mediaType "multipart/" then
    (none, some (DAErr.unsupportedContentType m.mediaType))
  else if m.hasBoundary = false then (none, some DAErr.noBoundary)
  else walkParts m.parts m.tailErr

/-! ## imaputil: `Init` (part_000 lines 226-268)

`Connect`, `Ping` and `Login` each wrap one external-library call whose
only observable effects here are the step performed and whether it failed;
an `ImapEnv` records which of the three calls would fail. `Init` is the
repository's sequencing of them. -/

/-- One step of the connection sequence. -/
inductive Step where
  | connect
  | ping
  | login
deriving Repr, DecidableEq

/-- The errors `Init` can propagate, one per failing step. -/
inductive InitErr where
  | connectErr
  | pingErr
  | loginErr
deriving Repr, DecidableEq

/-- Which of the three underlying calls fail in the current environment. -/
structure ImapEnv where
  connectFails : Bool
  pingFails : Bool
  loginFails : Bool
deriving Repr, DecidableEq

/-- `ImapCtx.Connect`: one `imap.DialTLS` call. -/
def connectRun (env : ImapEnv) : List Step × Option InitErr :=
  ([Step.connect], if env.connectFails then some InitErr.connectErr else none)

/-- `ImapCtx.Ping`: one NOOP round trip. -/
def pingRun (env : ImapEnv) : List Step × Option InitErr :=
  ([Step.ping], if env.pingFails then some InitErr.pingErr else none)

/-- `ImapCtx.Login`: one LOGIN command. -/
def loginRun (env : ImapEnv) : List Step × Option InitErr :=
  ([Step.login], if env.loginFails then some InitErr.loginErr else none)

/-- `ImapCtx.Init` (part_000 lines 252-268): when `ctx.IMAP == nil`
(`hasClient = false`) call `Connect`, returning its error if any; then
`Ping`, returning its error if any; then `Login`, returning its error.
The trace component lists the steps actually performed, in order. -/
def Init (hasClient : Bool) (env : ImapEnv) : List Step × Option InitErr :=
  let c := if hasClient then ([], none) else connectRun env
  match c.2 with
  | some e => (c.1, some e)
  | none =>
    let p := pingRun env
    match p.2 with
    | some e => (c.1 ++ p.1, some e)
    | none =>
      let l := loginRun env
      (c.1 ++ p.1 ++ l.1, l.2)

/-- Spec-side description for C6: the full fixed order of steps —
`connect` only when no client is present, then `ping`, then `login`. -/
def fullOrder (hasClient : Bool) : List Step :=
  (if hasClient then [] else [Step.connect]) ++ [Step.ping, Step.login]

/-- Whether a step fails in the given environment. -/
def stepFails (env : ImapEnv) : Step → Bool
  | Step.connect => env.connectFails
  | Step.ping => env.pingFails
  | Step.login => env.loginFails

/-- The error a failing step produces. -/
def errOf : Step → InitErr
  | Step.connect => InitErr.connectErr
  | Step.ping => InitErr.pingErr
  | Step.login => InitErr.loginErr

/-- Spec-side description for C6: run the given steps in order, stopping
at — and returning the error of — the first one that fails. -/
def runStopFirst (env : ImapEnv) : List Step → List Step × Option InitErr
  | [] => ([], none)
  | s :: ss =>
    if stepFails env s then ([s], some (errOf s))
    else
      let r := runStopFirst env ss
      (s :: r.1, r.2)

/-! ## imaputil: date criteria, `Search`, `Mailbox` (part_000 lines 308-353)

The go-imap `Client.Quote` is modelled for quotable strings (it wraps the
string in double quotes, escaping `"` and `\`), and `time.Now().Add(-dur)`
is modelled by passing the resulting calendar date directly; the Go layout
string `"2-Jan-2006"` (unpadded day, three-letter month, four-digit year)
is implemented below. -/

/-- A calendar date as Go `time.Format` sees it. -/
structure GoDate where
  year : Nat
  month : Nat
  day : Nat
deriving Repr, DecidableEq

/-- Go three-letter English month abbreviation (layout element `Jan`). -/
def monthAbbrev : Nat → String
  | 1 => "Jan" | 2 => "Feb" | 3 => "Mar" | 4 => "Apr"
  | 5 => "May" | 6 => "Jun" | 7 => "Jul" | 8 => "Aug"
  | 9 => "Sep" | 10 => "Oct" | 11 => "Nov" | 12 => "Dec"
  | _ => ""

/-- Go `time.Format` year element `2006`: the year zero-padded to four
digits. -/
def year4 (n : Nat) : String :=
  if n < 10 then "000" ++ toString n
  else if n < 100 then "00" ++ toString n
  else if n < 1000 then "0" ++ toString n
  else toString n

/-- Go `time.Format` with layout `"2-Jan-2006"`: unpadded day, month
abbreviation, four-digit year, joined by hyphens. -/
def format2Jan2006 (d : GoDate) : String :=
  toString d.day ++ "-" ++ monthAbbrev d.month ++ "-" ++ year4 d.year

/-- Model of go-imap `Client.Quote` on a quotable string: wrap in double
quotes, escaping `"` and `\`. -/
def imapQuote (s : String) : String :=
  "\"" ++ String.mk (s.data.foldr
    (fun c acc => if c = '"' ∨ c = '\\' then '\\' :: c :: acc else c :: acc)
    []) ++ "\""

/-- `ImapCtx.Since` (part_000 lines 308-315): the two-element criteria
list `SINCE <quoted date>`, where the date is `time.Now().Add(-dur)`
formatted as `2-Jan-2006`; the date resulting from that subtraction is
passed in, the formatting and quoting are performed here. -/
def Since (nowMinusDur : GoDate) : List String :=
  ["SINCE", imapQuote (format2Jan2006 nowMinusDur)]

/-- The criteria construction of the climap main (part_002 lines 61-81 and
src/cmd/climap/climap.go lines 85-105): start empty; when `-newer` is
given append `SINCE` and the quoted formatted date; when `-subject` is
given append `SUBJECT` and the quoted subject. -/
def buildCrit (hasNewer : Bool) (sinceDate : GoDate) (hasSubject : Bool)
    (subj : String) : List String :=
  let c0 : List String := []
  let c1 := if hasNewer then
      c0 ++ ["SINCE", imapQuote (format2Jan2006 sinceDate)]
    else c0
  if hasSubject then c1 ++ ["SUBJECT", imapQuote subj] else c1

/-- The field-building loop of `ImapCtx.Search` (part_000 lines 336-339):
append each term, in order, to the field list handed to
`ctx.IMAP.Search`. -/
def searchFields (terms : List String) : List String :=
  terms.foldl (fun acc t => acc ++ [t]) []

/-- The result-gathering loop of `ImapCtx.Search` (part_000 lines
344-351): append every id of every `SearchResults()` list of every
response datum, in order. -/
def gatherIds (respData : List (List Nat)) : List Nat :=
  respData.foldl (fun acc d => d.foldl (fun a u => a ++ [u]) acc) []

/-- `ImapCtx.Search` (part_000 lines 335-353) on the success path, as a
function of the server's response data: the fields actually sent with the
SEARCH command and the ids returned. -/
def Search (terms : List String) (respData : List (List Nat)) :
    List String × List Nat :=
  (searchFields terms, gatherIds respData)

/-! ## imaputil: commands issued, `Mailbox`, `MessageByUID` -/

/-- The IMAP commands the wrapper issues, with the arguments the code
passes to the go-imap client. -/
inductive Cmd where
  | list (ref box : String)
  | select (box : String) (readonly : Bool)
  | search (terms : List String)
  | fetch (seqset : Nat) (part : String)
deriving Repr, DecidableEq

/-- `ImapCtx.Mailbox` (part_000 lines 317-333): LIST the name; if no
mailbox data comes back, fail; otherwise SELECT each returned mailbox
name with the read-only flag `true`. Returns the commands issued and
whether the `Mailbox [..] not found` error was returned. -/
def MailboxRun (boxName : String) (listResp : List String) :
    List Cmd × Bool :=
  if listResp.length = 0 then ([Cmd.list "" boxName], true)
  else (Cmd.list "" boxName :: listResp.map (fun b => Cmd.select b true), false)

/-- The command `ImapCtx.Search` issues. -/
def SearchCmd (terms : List String) : Cmd :=
  Cmd.search (searchFields terms)

/-- The command `ImapCtx.PartByUID`/`MessageByUID` issues (part_000 lines
363-379): a plain `Client.Fetch` — the sequence-number-addressed FETCH
command — on a sequence set built from the uid number. -/
def PartByUIDCmd (uid : Nat) (part : String) : Cmd :=
  Cmd.fetch uid part

/-- Whether a command can change server-side mailbox state: of the
commands this wrapper issues, only a read-write SELECT opens the mailbox
in a state where later commands (e.g. FETCH setting `\Seen`) may alter
flags; LIST, SEARCH, FETCH and a read-only SELECT (EXAMINE) do not
modify the mailbox (RFC 3501). -/
def mutating : Cmd → Bool
  | Cmd.select _ readonly => !readonly
  | _ => false

/-- A mailbox as the FETCH data model sees it: `(uid, body)` pairs in
sequence-number order, message at index `i` having sequence number
`i + 1`. -/
structure MailboxState where
  msgs : List (Nat × List Nat)
deriving Repr, DecidableEq

/-- Model of go-imap `Client.Fetch` of `BODY[]` (the plain FETCH
command): addresses the message by sequence number. -/
def fetchSeqNum (st : MailboxState) (n : Nat) : Option (List Nat) :=
  match st.msgs.get? (n - 1) with
  | some e => some e.2
  | none => none

/-- Model of the `UID FETCH` command (go-imap `Client.UIDFetch`):
addresses the message by its UID. -/
def fetchByUid (st : MailboxState) (uid : Nat) : Option (List Nat) :=
  match st.msgs.find? (fun e => e.1 = uid) with
  | some e => some e.2
  | none => none

/-- `ImapCtx.MessageByUID` (part_000 lines 355-357 via `PartByUID`,
lines 363-379): builds a sequence set from the decimal rendering of the
uid number and hands it to `Client.Fetch` with section `BODY[]` — i.e. a
plain sequence-number FETCH, not a `UID FETCH`. -/
def MessageByUID (st : MailboxState) (uid : Nat) : Option (List Nat) :=
  fetchSeqNum st uid

/-! ## climap: the per-uid download-loop body (part_002 lines 88-120)

The filesystem is an association list from path to contents; `server`
gives the bytes `MessageByUID` would return for a uid, and `writeRes uid`
is the byte count the operating system reports for the single
`file.Write` call (clamped to the message length). -/

/-- `msgDir` of part_002 line 51: `baseDir/<user>/<mailbox>`. -/
def msgDirOf (baseDir user mailbox : String) : String :=
  baseDir ++ "/" ++ user ++ "/" ++ mailbox

/-- `msgFile` of part_002 line 92: `<msgDir>/<uid>.eml`. -/
def msgFileOf (msgDir : String) (uid : Nat) : String :=
  msgDir ++ "/" ++ toString uid ++ ".eml"

/-- Filesystem lookup: the contents of `path` when the file exists. -/
def lookupFile (fs : List (String × List Nat)) (path : String) :
    Option (List Nat) :=
  match fs.find? (fun e => e.1 = path) with
  | some e => some e.2
  | none => none

/-- `os.Create` followed by writing `data`: the path now maps to
`data`. -/
def setFile (fs : List (String × List Nat)) (path : String)
    (data : List Nat) : List (String × List Nat) :=
  (fs.filter (fun e => ¬ e.1 = path)) ++ [(path, data)]

/-- Outcome of one download-loop iteration. -/
structure IterResult where
  msgBytes : Option (List Nat)
  fs : List (String × List Nat)
  fetched : List Nat
  fatal : Bool
deriving Repr, DecidableEq

/-- One iteration of the climap download loop for a uid (part_002 lines
92-120): if `<msgDir>/<uid>.eml` opens, read the message bytes from it
and fetch nothing; otherwise create the file, fetch via `MessageByUID`,
and write the bytes, turning a short count into `io.ErrShortWrite`
(`log.Fatal`, recorded as `fatal`). -/
def downloadIter (server : Nat → List Nat) (writeRes : Nat → Nat)
    (fs : List (String × List Nat)) (msgDir : String) (uid : Nat) :
    IterResult :=
  let path := msgFileOf msgDir uid
  match lookupFile fs path with
  | some bytes => ⟨some bytes, fs, [], false⟩
  | none =>
    let m := server uid
    let n := min (writeRes uid) m.length
    if n < m.length then ⟨none, setFile fs path (m.take n), [uid], true⟩
    else ⟨some m, setFile fs path m, [uid], false⟩

/-! ## Helper lemmas on the part walk -/

/-- Whenever `decodePart` yields an attachment, its `Filename` is the
part's `FileName()`. -/
theorem decodePart_filename (p : MimePart) (att : Attachment)
    (h : (decodePart p).1 = some att) : att.filename = p.fileName := by
  unfold decodePart at h
  by_cases h1 : p.cte = ""
  · simp [h1] at h
    subst h
    rfl
  · by_cases h2 : p.cte = "base64"
    · rcases hb : base64Decode (stripSpaceBytes p.body) with _ | dec <;>
        simp [h1, h2, hb] at h
      subst h
      rfl
    · simp [h1, h2] at h
      subst h
      rfl

/-- Parts with an empty `FileName()` are skipped by the loop. -/
theorem walkParts_skip (pre ps : List MimePart) (t : Bool)
    (h : ∀ q ∈ pre, q.fileName = "") :
    walkParts (pre ++ ps) t = walkParts ps t := by
  induction pre with
  | nil => rfl
  | cons q qs ih =>
    have hq : q.fileName = "" := h q (by simp)
    have hqs : ∀ r ∈ qs, r.fileName = "" := fun r hr => h r (by simp [hr])
    simp [walkParts, hq, ih hqs]

/-- If the loop yields an attachment, the part list splits at a first
filename-carrying part, and the attachment is built from it. -/
theorem walkParts_first_filename (ps : List MimePart) (t : Bool)
    (att : Attachment) (e : Option DAErr)
    (h : walkParts ps t = (some att, e)) :
    ∃ pre p post, ps = pre ++ p :: post ∧ (∀ q ∈ pre, q.fileName = "") ∧
      p.fileName ≠ "" ∧ att.filename = p.fileName := by
  induction ps with
  | nil => by_cases ht : t <;> simp [walkParts, ht] at h
  | cons p ps ih =>
    by_cases hf : p.fileName = ""
    · simp [walkParts, hf] at h
      obtain ⟨pre, q, post, h1, h2, h3, h4⟩ := ih h
      refine ⟨p :: pre, q, post, by simp [h1], ?_, h3, h4⟩
      intro r hr
      rcases List.mem_cons.mp hr with h5 | h5
      · exact h5 ▸ hf
      · exact h2 r h5
    · refine ⟨[], p, ps, rfl, by simp, hf, ?_⟩
      simp [walkParts, hf] at h
      by_cases hr : p.readErr
      · simp [hr] at h
      · simp [hr] at h
        exact decodePart_filename p att (congrArg Prod.fst h)

/-- If the loop succeeds with an attachment and no error, the `Length`
field counts the bytes of `Content`. -/
theorem walkParts_length_inv (ps : List MimePart) (t : Bool)
    (att : Attachment) (h : walkParts ps t = (some att, none)) :
    att.length = att.content.length := by
  induction ps with
  | nil => by_cases ht : t <;> simp [walkParts, ht] at h
  | cons p ps ih =>
    by_cases hf : p.fileName = ""
    · simp [walkParts, hf] at h
      exact ih h
    · simp [walkParts, hf] at h
      by_cases hr : p.readErr
      · simp [hr] at h
      · simp [hr] at h
        unfold decodePart at h
        by_cases h1 : p.cte = ""
        · simp [h1] at h
          subst h
          rfl
        · by_cases h2 : p.cte = "base64"
          · rcases hb : base64Decode (stripSpaceBytes p.body) with _ | dec <;>
              simp [h1, h2, hb] at h
            subst h
            rfl
          · simp [h1, h2] at h

/-! ## Claim theorems -/

/-- C1: for every multipart MIME message whose first filename-carrying
part declares Content-Transfer-Encoding `base64` (and whose body, with
whitespace removed, decodes successfully), `DecodeAttachment` returns an
`Attachment` whose `Content` is the base64 decoding of that part's body
and whose `Length` equals the number of decoded bytes. -/
theorem decodeAttachment_base64_content (m : MimeMsg) (pre : List MimePart)
    (p : MimePart) (post : List MimePart) (dec : List Nat)
    (hparts : m.parts = pre ++ p :: post)
    (hpre : ∀ q ∈ pre, q.fileName = "")
    (hname : p.fileName ≠ "")
    (hhdr : m.headerErr = false)
    (hmt : strHasPre m.mediaType "multipart/" = true)
    (hb : m.hasBoundary = true)
    (hread : p.readErr = false)
    (henc : p.cte = "base64")
    (hdec : base64Decode (stripSpaceBytes p.body) = some dec) :
    DecodeAttachment m = (some ⟨p.fileName, dec.length, dec, "base64"⟩, none) := by
  have hskip := walkParts_skip pre (p :: post) m.tailErr hpre
  simp only [DecodeAttachment, hhdr, hmt, hb, hparts, Bool.false_eq_true,
    if_false, not_true_eq_false, Bool.true_eq_false, hskip]
  simp [walkParts, hname, hread, decodePart, henc, hdec]

/-- C1 witness: a two-part message whose second part carries `a.txt`
base64-encoded as `QUJD`, decoding to `ABC`. -/
theorem decodeAttachment_base64_content_witness :
    base64Decode (stripSpaceBytes [81, 85, 74, 68]) = some [65, 66, 67]
    ∧ DecodeAttachment
        ⟨false, "multipart/mixed", true,
          [⟨"", "", [1], false⟩, ⟨"a.txt", "base64", [81, 85, 74, 68], false⟩],
          false⟩ =
      (some ⟨"a.txt", 3, [65, 66, 67], "base64"⟩, none) :=
  ⟨by decide,
    decodeAttachment_base64_content
      ⟨false, "multipart/mixed", true,
        [⟨"", "", [1], false⟩, ⟨"a.txt", "base64", [81, 85, 74, 68], false⟩],
        false⟩
      [⟨"", "", [1], false⟩] ⟨"a.txt", "base64", [81, 85, 74, 68], false⟩ []
      [65, 66, 67] rfl (by decide) (by decide) rfl (by decide) rfl rfl rfl
      (by decide)⟩

/-- C2: whenever `DecodeAttachment` returns an attachment, the part list
splits as `pre ++ p :: post` with every part of `pre` carrying no
filename and `p` carrying one, and the attachment is `p`'s — the walk
takes parts in order, skips filename-less parts, and at most one
attachment (a single `*Attachment`) is ever returned. -/
theorem decodeAttachment_first_filename_part (m : MimeMsg) (att : Attachment)
    (e : Option DAErr) (h : DecodeAttachment m = (some att, e)) :
    ∃ pre p post, m.parts = pre ++ p :: post ∧
      (∀ q ∈ pre, q.fileName = "") ∧ p.fileName ≠ "" ∧
      att.filename = p.fileName := by
  unfold DecodeAttachment at h
  by_cases h1 : m.headerErr <;> simp [h1] at h
  by_cases h2 : strHasPre m.mediaType "multipart/" <;> simp [h2] at h
  by_cases h3 : m.hasBoundary <;> simp [h3] at h
  exact walkParts_first_filename m.parts m.tailErr att e h

/-- C2 witness: a message whose only part carries `b.txt`. -/
theorem decodeAttachment_first_filename_part_witness :
    DecodeAttachment
        ⟨false, "multipart/mixed", true, [⟨"b.txt", "", [7], false⟩], false⟩ =
      (some ⟨"b.txt", 1, [7], ""⟩, none)
    ∧ ∃ pre p post,
        ([⟨"b.txt", "", [7], false⟩] : List MimePart) = pre ++ p :: post ∧
        (∀ q ∈ pre, q.fileName = "") ∧ p.fileName ≠ "" ∧
        (Attachment.mk "b.txt" 1 [7] "").filename = p.fileName :=
  ⟨by decide,
    decodeAttachment_first_filename_part
      ⟨false, "multipart/mixed", true, [⟨"b.txt", "", [7], false⟩], false⟩
      ⟨"b.txt", 1, [7], ""⟩ none (by decide)⟩

/-- C5: for the first filename-carrying part, `DecodeAttachment` handles
exactly the two Content-Transfer-Encoding cases empty header and
`base64`; every other declared encoding yields the
`Unsupported Content-Transfer-Encoding` error. -/
theorem decodeAttachment_encoding_cases (m : MimeMsg) (pre : List MimePart)
    (p : MimePart) (post : List MimePart)
    (hparts : m.parts = pre ++ p :: post)
    (hpre : ∀ q ∈ pre, q.fileName = "")
    (hname : p.fileName ≠ "")
    (hhdr : m.headerErr = false)
    (hmt : strHasPre m.mediaType "multipart/" = true)
    (hb : m.hasBoundary = true)
    (hread : p.readErr = false) :
    (p.cte ≠ "" → p.cte ≠ "base64" →
      DecodeAttachment m =
        (some ⟨p.fileName, p.body.length, p.body, p.cte⟩,
          some (DAErr.unsupportedCTE p.cte)))
    ∧ (p.cte = "" →
      DecodeAttachment m =
        (some ⟨p.fileName, p.body.length, p.body, ""⟩, none))
    ∧ (∀ dec, p.cte = "base64" →
      base64Decode (stripSpaceBytes p.body) = some dec →
      DecodeAttachment m = (some ⟨p.fileName, dec.length, dec, "base64"⟩, none)) := by
  have hskip := walkParts_skip pre (p :: post) m.tailErr hpre
  have hred : DecodeAttachment m = decodePart p := by
    simp only [DecodeAttachment, hhdr, hmt, hb, hparts, Bool.false_eq_true,
      if_false, not_true_eq_false, Bool.true_eq_false, hskip]
    simp [walkParts, hname, hread]
  refine ⟨?_, ?_, ?_⟩
  · intro h1 h2
    rw [hred]
    simp [decodePart, h1, h2]
  · intro h1
    rw [hred]
    simp [decodePart, h1]
  · intro dec h2 hdec
    rw [hred]
    simp [decodePart, h2, hdec]

/-- C5 witness: a `7bit` part produces the unsupported-encoding error. -/
theorem decodeAttachment_encoding_cases_witness :
    ("7bit" : String) ≠ "" ∧ ("7bit" : String) ≠ "base64" ∧
    DecodeAttachment
        ⟨false, "multipart/mixed", true, [⟨"c.bin", "7bit", [5], false⟩], false⟩ =
      (some ⟨"c.bin", 1, [5], "7bit"⟩, some (DAErr.unsupportedCTE "7bit")) :=
  ⟨by decide, by decide,
    (decodeAttachment_encoding_cases
        ⟨false, "multipart/mixed", true, [⟨"c.bin", "7bit", [5], false⟩], false⟩
        [] ⟨"c.bin", "7bit", [5], false⟩ [] rfl (by decide) (by decide) rfl
        (by decide) rfl rfl).1 (by decide) (by decide)⟩

/-- C8: every `Attachment` returned by `DecodeAttachment` with a nil
error has `Length` equal to the number of bytes in `Content`, in both the
no-encoding and the base64 case. -/
theorem attachment_length_invariant (m : MimeMsg) (att : Attachment)
    (h : DecodeAttachment m = (some att, none)) :
    att.length = att.content.length := by
  unfold DecodeAttachment at h
  by_cases h1 : m.headerErr <;> simp [h1] at h
  by_cases h2 : strHasPre m.mediaType "multipart/" <;> simp [h2] at h
  by_cases h3 : m.hasBoundary <;> simp [h3] at h
  exact walkParts_length_inv m.parts m.tailErr att h

/-- C8 witness: a no-encoding attachment of three bytes. -/
theorem attachment_length_invariant_witness :
    DecodeAttachment
        ⟨false, "multipart/alternative", true,
          [⟨"d.txt", "", [1, 2, 3], false⟩], false⟩ =
      (some ⟨"d.txt", 3, [1, 2, 3], ""⟩, none)
    ∧ (Attachment.mk "d.txt" 3 [1, 2, 3] "").length =
        (Attachment.mk "d.txt" 3 [1, 2, 3] "").content.length :=
  ⟨by decide,
    attachment_length_invariant
      ⟨false, "multipart/alternative", true, [⟨"d.txt", "", [1, 2, 3], false⟩],
        false⟩
      ⟨"d.txt", 3, [1, 2, 3], ""⟩ (by decide)⟩

/-- C9: a message that parses as multipart with a boundary and whose
parts all lack a filename makes `DecodeAttachment` return a nil
attachment and a nil error. -/
theorem decodeAttachment_no_filename_nil (m : MimeMsg)
    (hhdr : m.headerErr = false)
    (hmt : strHasPre m.mediaType "multipart/" = true)
    (hb : m.hasBoundary = true)
    (htail : m.tailErr = false)
    (hall : ∀ p ∈ m.parts, p.fileName = "") :
    DecodeAttachment m = (none, none) := by
  have h0 : walkParts (m.parts ++ []) m.tailErr = walkParts [] m.tailErr :=
    walkParts_skip m.parts [] m.tailErr hall
  rw [List.append_nil] at h0
  simp only [DecodeAttachment, hhdr, hmt, hb, Bool.false_eq_true, if_false,
    not_true_eq_false, Bool.true_eq_false, h0]
  simp [walkParts, htail]

/-- C9 witness: two filename-less parts yield `(nil, nil)`. -/
theorem decodeAttachment_no_filename_nil_witness :
    (∀ p ∈ ([⟨"", "", [9], false⟩, ⟨"", "base64", [3], false⟩] : List MimePart),
      p.fileName = "")
    ∧ DecodeAttachment
        ⟨false, "multipart/mixed", true,
          [⟨"", "", [9], false⟩, ⟨"", "base64", [3], false⟩], false⟩ =
      (none, none) :=
  ⟨by decide,
    decodeAttachment_no_filename_nil
      ⟨false, "multipart/mixed", true,
        [⟨"", "", [9], false⟩, ⟨"", "base64", [3], false⟩], false⟩
      rfl (by decide) rfl rfl (by decide)⟩

/-- C3: one iteration of the climap download loop for a matched uid: if
`<baseDir>/<user>/<mailbox>/<uid>.eml` exists, the message bytes are read
from it and no fetch is issued and the filesystem is untouched; if it does
not exist, the message is fetched and written in full to that file; a
short write is reported as an error. -/
theorem downloadIter_cache_semantics (server : Nat → List Nat)
    (writeRes : Nat → Nat) (fs : List (String × List Nat))
    (baseDir user mailbox : String) (uid : Nat) :
    (∀ bytes,
      lookupFile fs (msgFileOf (msgDirOf baseDir user mailbox) uid) = some bytes →
      downloadIter server writeRes fs (msgDirOf baseDir user mailbox) uid =
        ⟨some bytes, fs, [], false⟩)
    ∧ (lookupFile fs (msgFileOf (msgDirOf baseDir user mailbox) uid) = none →
      (server uid).length ≤ writeRes uid →
      downloadIter server writeRes fs (msgDirOf baseDir user mailbox) uid =
        ⟨some (server uid),
          setFile fs (msgFileOf (msgDirOf baseDir user mailbox) uid) (server uid),
          [uid], false⟩)
    ∧ (lookupFile fs (msgFileOf (msgDirOf baseDir user mailbox) uid) = none →
      writeRes uid < (server uid).length →
      (downloadIter server writeRes fs (msgDirOf baseDir user mailbox) uid).fatal
        = true) := by
  refine ⟨?_, ?_, ?_⟩
  · intro bytes hl
    simp [downloadIter, hl]
  · intro hl hn
    have hm : min (writeRes uid) (server uid).length = (server uid).length :=
      Nat.min_eq_right hn
    simp [downloadIter, hl, hm]
  · intro hl hn
    have hm : min (writeRes uid) (server uid).length = writeRes uid :=
      Nat.min_eq_left (Nat.le_of_lt hn)
    simp [downloadIter, hl, hm, hn]

/-- C3 witness: an empty filesystem forces a fetch of uid 7, written in
full to `b/u/m/7.eml`. -/
theorem downloadIter_cache_semantics_witness :
    lookupFile [] (msgFileOf (msgDirOf "b" "u" "m") 7) = none
    ∧ downloadIter (fun _ => [1, 2]) (fun _ => 2) [] (msgDirOf "b" "u" "m") 7 =
      ⟨some [1, 2], setFile [] (msgFileOf (msgDirOf "b" "u" "m") 7) [1, 2],
        [7], false⟩ :=
  ⟨rfl,
    (downloadIter_cache_semantics (fun _ => [1, 2]) (fun _ => 2) [] "b" "u" "m"
        7).2.1 rfl (by decide)⟩

/-- C4: `MessageByUID` builds a sequence set from the uid number and
issues a plain sequence-number FETCH (go-imap `Client.Fetch`), not a
`UID FETCH`. On a mailbox where the first message was expunged, so that
the messages with UIDs 2 and 3 sit at sequence numbers 1 and 2,
`MessageByUID 2` returns the body of the message with UID 3 — not the
body that fetching by UID would return. -/
theorem messageByUID_fetches_by_seqnum :
    MessageByUID ⟨[(2, [10]), (3, [20])]⟩ 2 = some [20]
    ∧ fetchByUid ⟨[(2, [10]), (3, [20])]⟩ 2 = some [10]
    ∧ MessageByUID ⟨[(2, [10]), (3, [20])]⟩ 2 ≠
        fetchByUid ⟨[(2, [10]), (3, [20])]⟩ 2 := by
  refine ⟨rfl, rfl, by decide⟩

/-- C6: `Init` performs exactly the fixed sequence — `connect` (only when
no client is already present), then `ping`, then `login` — stopping at,
and returning the error of, the first step that fails, so no later step
runs after a failure. -/
theorem init_fixed_order (hasClient : Bool) (env : ImapEnv) :
    Init hasClient env = runStopFirst env (fullOrder hasClient) := by
  rcases env with ⟨ce, pe, le⟩
  cases hasClient <;> cases ce <;> cases pe <;> cases le <;> rfl

/-- Appending the elements of `l` one by one to `acc` appends `l`. -/
theorem foldl_push_eq {α : Type} (l acc : List α) :
    l.foldl (fun a t => a ++ [t]) acc = acc ++ l := by
  induction l generalizing acc with
  | nil => simp
  | cons x xs ih => simp [List.foldl_cons, ih]

/-- The nested id-gathering fold concatenates the response lists. -/
theorem gather_aux (respData : List (List Nat)) (acc : List Nat) :
    respData.foldl (fun a d => d.foldl (fun a2 u => a2 ++ [u]) a) acc =
      acc ++ respData.flatten := by
  induction respData generalizing acc with
  | nil => simp
  | cons d ds ih =>
    rw [List.foldl_cons, foldl_push_eq, ih]
    simp [List.append_assoc]

/-- C7: with `-newer` given, the criteria contain `SINCE` immediately
followed by the quoted `2-Jan-2006` rendering of now minus the duration
(the date resulting from `time.Now().Add(-dur)` is `d`); with `-subject`
given they contain `SUBJECT` immediately followed by the quoted subject;
`Search` forwards exactly these terms, in order, as the SEARCH fields and
returns the concatenation of all returned id lists. -/
theorem search_criteria_structure (hasNewer hasSubject : Bool) (d : GoDate)
    (subj : String) (respData : List (List Nat)) :
    buildCrit hasNewer d hasSubject subj =
      (if hasNewer then ["SINCE", imapQuote (format2Jan2006 d)] else []) ++
        (if hasSubject then ["SUBJECT", imapQuote subj] else [])
    ∧ buildCrit true d false subj = Since d
    ∧ (Search (buildCrit hasNewer d hasSubject subj) respData).1 =
        buildCrit hasNewer d hasSubject subj
    ∧ (Search (buildCrit hasNewer d hasSubject subj) respData).2 =
        respData.flatten := by
  refine ⟨?_, ?_, ?_, ?_⟩
  · cases hasNewer <;> cases hasSubject <;> simp [buildCrit]
  · simp [buildCrit, Since]
  · simp [Search, searchFields, foldl_push_eq]
  · simp [Search, gatherIds, gather_aux]

/-- C10: `Mailbox` only ever issues SELECT with the read-only flag set,
and none of the commands the wrapper issues — LIST, read-only SELECT,
SEARCH, FETCH — modifies server-side mailbox state. -/
theorem mailbox_select_readonly (boxName : String) (listResp : List String)
    (terms : List String) (uid : Nat) :
    (∀ b ro, Cmd.select b ro ∈ (MailboxRun boxName listResp).1 → ro = true)
    ∧ (∀ c ∈ (MailboxRun boxName listResp).1, mutating c = false)
    ∧ mutating (SearchCmd terms) = false
    ∧ mutating (PartByUIDCmd uid "BODY[]") = false := by
  refine ⟨?_, ?_, rfl, rfl⟩
  · intro b ro hmem
    unfold MailboxRun at hmem
    by_cases h0 : listResp.length = 0 <;> simp [h0] at hmem
    rcases hmem with ⟨x, _, _, h2⟩
    exact h2
  · intro c hmem
    unfold MailboxRun at hmem
    by_cases h0 : listResp.length = 0 <;> simp [h0] at hmem
    · rw [hmem]
      rfl
    · rcases hmem with h1 | ⟨x, _, h2⟩
      · rw [h1]
        rfl
      · rw [← h2]
        rfl

/-- C10 witness: a LIST response with one mailbox name. -/
theorem mailbox_select_readonly_witness :
    Cmd.select "INBOX" true ∈ (MailboxRun "INBOX" ["INBOX"]).1
    ∧ true = true :=
  ⟨by decide,
    (mailbox_select_readonly "INBOX" ["INBOX"] ["ALL"] 1).1 "INBOX" true
      (by decide)⟩

end Mailtools
